import Mathlib

/-!
Shallow embedding of the Veo Studio front-end (src/App.tsx, src/unnamed/part_000,
src/services/geminiService.ts, src/types.ts).

The embedding models the generation-lifecycle controller of the VideoStudio
component: the submit precondition guard, the adapter wrappers around the remote
service, the poll loop with its fixed 10-second delay, the success path that
prepends a CompletedVideo to history, the catch-block error classifier
(credential reset / quota / generic), the error-message unwrapping helpers, and
removeVideo.  Rendering, styling, and the cosmetic rotating status messages are
presentation-only and are not part of the model.  Machine integers do not occur;
timestamps and ids are modelled as Nat / String.  JSON.parse and
String.prototype.toLowerCase are platform primitives modelled by an executable
JSON parser over a standard JSON grammar and by character-wise lowercasing.
-/

set_option maxRecDepth 16384

namespace Veo

/-! Basic data model, from src/types.ts. -/

/-- Resolution, from src/types.ts: the two literal values 720p and 1080p. -/
inductive Resolution where
  | r720p
  | r1080p
deriving DecidableEq, Repr

/-- Aspect ratio, from src/types.ts: the two literal values 16:9 and 9:16. -/
inductive Aspect where
  | a16x9
  | a9x16
deriving DecidableEq, Repr

/-- GeneratedVideo, from src/types.ts.  The aspect-ratio field is named
aspect here. -/
structure GeneratedVideo where
  id : String
  url : String
  prompt : String
  resolution : Resolution
  aspect : Aspect
  createdAt : Nat
deriving DecidableEq, Repr

/-- ImagePayload, from src/services/geminiService.ts. -/
structure ImagePayload where
  imageBytes : String
  mimeType : String
deriving DecidableEq, Repr

/-- A remote long-running operation as the controller observes it:
done flag, optional job-level error message (operation.error.message, with
the empty string standing for a present error object whose message field is
falsy), and the optional result URI
operation.response.generatedVideos[0].video.uri. -/
structure Operation where
  done : Bool
  error : Option String
  videoUri : Option String
deriving DecidableEq, Repr

/-! String helpers modelling JS primitives. -/

/-- The left-brace character. -/
def lbrace : Char := Char.ofNat 123

/-- The right-brace character. -/
def rbrace : Char := Char.ofNat 125

/-- Model of JS String.prototype.includes: substring containment. -/
def containsSub (hay needle : String) : Bool :=
  decide (needle.data <:+: hay.data)

/-- Model of JS String.prototype.toLowerCase: character-wise lowercasing. -/
def lowerStr (s : String) : String :=
  String.mk (s.data.map Char.toLower)

/-- Model of JS String.prototype.trim: drop leading and trailing
whitespace. -/
def trimStr (s : String) : String :=
  String.mk (((s.data.dropWhile Char.isWhitespace).reverse.dropWhile
    Char.isWhitespace).reverse)

/-! Model of the platform primitive JSON.parse, used by the catch block of
startGeneration and by parseErrorMessage.  Numbers are kept as raw text
since no claim depends on numeric values. -/

/-- JSON values. -/
inductive Json where
  | jnull
  | jbool (b : Bool)
  | jnum (raw : String)
  | jstr (s : String)
  | jarr (items : List Json)
  | jobj (fields : List (String × Json))

/-- Whitespace skipped between JSON tokens. -/
def jsonWs (c : Char) : Bool :=
  c = ' ' || c = '\t' || c = '\n' || c = '\r'

/-- Drop leading JSON whitespace. -/
def skipWs : List Char → List Char
  | [] => []
  | c :: cs => if jsonWs c then skipWs cs else c :: cs

/-- Single-character escape sequences in JSON strings. -/
def escChar (e : Char) : Option Char :=
  if e = '"' then some '"'
  else if e = '\\' then some '\\'
  else if e = '/' then some '/'
  else if e = 'n' then some '\n'
  else if e = 't' then some '\t'
  else if e = 'r' then some '\r'
  else if e = 'b' then some (Char.ofNat 8)
  else if e = 'f' then some (Char.ofNat 12)
  else none

/-- Value of a hexadecimal digit. -/
def hexVal (c : Char) : Option Nat :=
  if c.isDigit then some (c.toNat - 48)
  else if 'a' ≤ c ∧ c ≤ 'f' then some (c.toNat - 87)
  else if 'A' ≤ c ∧ c ≤ 'F' then some (c.toNat - 55)
  else none

/-- Parse the body of a JSON string after the opening quote; returns the
decoded characters and the remainder after the closing quote. -/
def parseStrChars : List Char → Option (List Char × List Char)
  | [] => none
  | '"' :: cs => some ([], cs)
  | '\\' :: 'u' :: a :: b :: c :: d :: cs =>
    match hexVal a, hexVal b, hexVal c, hexVal d with
    | some ha, some hb, some hc, some hd =>
      (parseStrChars cs).map fun p =>
        (Char.ofNat (((ha * 16 + hb) * 16 + hc) * 16 + hd) :: p.1, p.2)
    | _, _, _, _ => none
  | '\\' :: e :: cs =>
    match escChar e with
    | some ec => (parseStrChars cs).map fun p => (ec :: p.1, p.2)
    | none => none
  | c :: cs =>
    if c = '\\' then none
    else (parseStrChars cs).map fun p => (c :: p.1, p.2)

/-- Characters that may occur in a JSON numeral after the first one. -/
def numChar (c : Char) : Bool :=
  c.isDigit || c = '.' || c = 'e' || c = 'E' || c = '+' || c = '-'

/-- Split off a maximal run of numeral characters. -/
def spanNum : List Char → (List Char × List Char)
  | [] => ([], [])
  | c :: cs =>
    if numChar c then
      let p := spanNum cs
      (c :: p.1, p.2)
    else ([], c :: cs)

mutual

/-- Parse one JSON value; fuel bounds the recursion depth. -/
def parseVal : Nat → List Char → Option (Json × List Char)
  | 0, _ => none
  | fuel + 1, cs =>
    match skipWs cs with
    | [] => none
    | c :: rest =>
      if c = lbrace then
        match skipWs rest with
        | c2 :: rest2 =>
          if c2 = rbrace then some (Json.jobj [], rest2)
          else parseObjFields fuel (c2 :: rest2) []
        | [] => none
      else if c = '[' then
        match skipWs rest with
        | ']' :: rest2 => some (Json.jarr [], rest2)
        | rest2 => parseArrItems fuel rest2 []
      else if c = '"' then
        (parseStrChars rest).map fun p => (Json.jstr (String.mk p.1), p.2)
      else if c = 't' then
        if rest.take 3 = ['r', 'u', 'e'] then some (Json.jbool true, rest.drop 3) else none
      else if c = 'f' then
        if rest.take 4 = ['a', 'l', 's', 'e'] then some (Json.jbool false, rest.drop 4) else none
      else if c = 'n' then
        if rest.take 3 = ['u', 'l', 'l'] then some (Json.jnull, rest.drop 3) else none
      else if c = '-' ∨ c.isDigit then
        let p := spanNum rest
        some (Json.jnum (String.mk (c :: p.1)), p.2)
      else none

/-- Parse the fields of a JSON object, positioned at a key. -/
def parseObjFields : Nat → List Char → List (String × Json) →
    Option (Json × List Char)
  | 0, _, _ => none
  | fuel + 1, cs, acc =>
    match skipWs cs with
    | '"' :: rest =>
      match parseStrChars rest with
      | some (k, r1) =>
        match skipWs r1 with
        | ':' :: r2 =>
          match parseVal fuel r2 with
          | some (v, r3) =>
            match skipWs r3 with
            | c2 :: r4 =>
              if c2 = ',' then parseObjFields fuel r4 ((String.mk k, v) :: acc)
              else if c2 = rbrace then
                some (Json.jobj (((String.mk k, v) :: acc).reverse), r4)
              else none
            | [] => none
          | none => none
        | _ => none
      | none => none
    | _ => none

/-- Parse the items of a JSON array, positioned at a value. -/
def parseArrItems : Nat → List Char → List Json → Option (Json × List Char)
  | 0, _, _ => none
  | fuel + 1, cs, acc =>
    match parseVal fuel cs with
    | some (v, r1) =>
      match skipWs r1 with
      | ',' :: r2 => parseArrItems fuel r2 (v :: acc)
      | ']' :: r2 => some (Json.jarr ((v :: acc).reverse), r2)
      | _ => none
    | none => none

end

/-- Model of JSON.parse: parse a complete JSON document (trailing whitespace
only), or fail as JSON.parse throws. -/
def parseJsonStr (s : String) : Option Json :=
  match parseVal (s.length * 2 + 4) s.data with
  | some (j, rest) => if skipWs rest = [] then some j else none
  | none => none

/-- Field lookup on a parsed JSON object.  JSON.parse lets a duplicate key
overwrite an earlier one, so the last occurrence wins. -/
def Json.getField (j : Json) (k : String) : Option Json :=
  match j with
  | .jobj fs => (fs.reverse.find? fun p => p.1 = k).map (·.2)
  | _ => none

/-- The parsed.error.message string field, when present
(parsed.error?.message in the source). -/
def errMsgField (j : Json) : Option String :=
  match j.getField "error" with
  | some e =>
    match e.getField "message" with
    | some (.jstr m) => some m
    | _ => none
  | none => none

/-- The parsed.message string field, when present. -/
def topMsgField (j : Json) : Option String :=
  match j.getField "message" with
  | some (.jstr m) => some m
  | _ => none

/-! Model of the brace-locating regular expression used by parseErrorMessage
in src/App.tsx (the msg.match on a greedy brace-delimited pattern).  The dot
of the pattern does not cross newlines, so a match lies within one line: it
starts at the first left brace of a line that is followed by a right brace
later in the same line, and ends at the last right brace of that line. -/

/-- Index of the last right brace in a list of characters. -/
def lastBraceIdx : List Char → Option Nat
  | [] => none
  | c :: cs =>
    match lastBraceIdx cs with
    | some i => some (i + 1)
    | none => if c = rbrace then some 0 else none

/-- Leftmost greedy brace-delimited match within a single line. -/
def lineFirstMatch : List Char → Option (List Char)
  | [] => none
  | c :: cs =>
    if c = lbrace then
      match lastBraceIdx cs with
      | none => none
      | some r => some (c :: cs.take (r + 1))
    else lineFirstMatch cs

/-- Split a character list on newline characters. -/
def splitNl : List Char → List (List Char)
  | [] => [[]]
  | c :: cs =>
    if c = '\n' then [] :: splitNl cs
    else
      match splitNl cs with
      | l :: ls => (c :: l) :: ls
      | [] => [[c]]

/-- Model of msg.match on the greedy brace pattern in parseErrorMessage:
the first line with a brace-delimited candidate yields the match. -/
def extractBraces (s : String) : Option String :=
  ((splitNl s.data).findSome? lineFirstMatch).map String.mk

/-! The error-message helpers of the lifecycle controller. -/

/-- parseErrorMessage, from src/App.tsx lines 526-537: locate a
brace-delimited substring of the message, JSON-parse it, and prefer the
error.message field, then the message field (each only when truthy, i.e.
a nonempty string), falling back to the raw message.  The String(err)
coercion for non-Error throwables is outside the model: the argument is
the message string itself. -/
def parseErrorMessage (msg : String) : String :=
  match extractBraces msg with
  | none => msg
  | some sub =>
    match parseJsonStr sub with
    | none => msg
    | some j =>
      match errMsgField j with
      | some m =>
        if m = "" then
          match topMsgField j with
          | some m2 => if m2 = "" then msg else m2
          | none => msg
        else m
      | none =>
        match topMsgField j with
        | some m2 => if m2 = "" then msg else m2
        | none => msg

/-- The message-unwrapping step of the catch block in src/App.tsx lines
168-175: JSON.parse the whole raw message and take parsed.error.message
when truthy, else keep the raw message. -/
def unwrapRaw (raw : String) : String :=
  match parseJsonStr raw with
  | some j =>
    match errMsgField j with
    | some m => if m = "" then raw else m
    | none => raw
  | none => raw

/-- The quota classifier of the catch block in src/App.tsx lines 177-179:
the unwrapped message contains RESOURCE_EXHAUSTED, or 429, or contains
quota after lowercasing. -/
def quotaCheck (cleanMsg : String) : Bool :=
  containsSub cleanMsg "RESOURCE_EXHAUSTED" ||
    containsSub cleanMsg "429" ||
    containsSub (lowerStr cleanMsg) "quota"

/-! The service adapters, from src/services/geminiService.ts. -/

/-- The credential-invalidation marker tested by all three adapters. -/
def notFoundMarker : String := "Requested entity was not found"

/-- The distinguished credential-reset message thrown by the adapters. -/
def resetSignal : String := "API_KEY_RESET_REQUIRED"

/-- A rejection of a remote SDK call as generateVeoVideo and
getOperationStatus observe it: the JSON.stringify rendering of the error
object, and the error message itself (the adapters test the concatenation
of the two, and rethrow the original error). -/
structure AdapterErr where
  stringified : String
  message : String
deriving DecidableEq, Repr

/-- The request payload generateVeoVideo passes to the remote
generateVideos call (src/services/geminiService.ts lines 18-30); the image
part is kept abstract as presence only. -/
structure VeoRequest where
  model : String
  prompt : String
  hasImage : Bool
  resolution : Resolution
  aspect : Aspect
deriving DecidableEq, Repr

/-- The payload built by generateVeoVideo: a falsy (empty) prompt is
replaced by the fixed animate-this-image fallback text. -/
def buildVeoRequest (prompt : String) (res : Resolution) (asp : Aspect)
    (image : Option ImagePayload) : VeoRequest :=
  { model := "veo-3.1-fast-generate-preview"
    prompt := if prompt = "" then "Animate this image with natural motion" else prompt
    hasImage := image.isSome
    resolution := res
    aspect := asp }

/-- Error normalization shared by generateVeoVideo and getOperationStatus:
when the stringified error together with its message contains the
not-found marker, the adapter throws the reset signal instead. -/
def adapterWrap : Except AdapterErr Operation → Except String Operation
  | .ok op => .ok op
  | .error e =>
    if containsSub (e.stringified ++ e.message) notFoundMarker then .error resetSignal
    else .error e.message

/-- Outcome of the raw fetch inside fetchVideoBlobUrl: either a blob URL
for an ok response, or an http failure with status and body text. -/
inductive FetchOutcome where
  | ok (blobUrl : String)
  | httpError (status : Nat) (body : String)
deriving DecidableEq, Repr

/-- fetchVideoBlobUrl, from src/services/geminiService.ts lines 55-66: on a
non-ok response, a body containing the not-found marker or a 404 status
throws the reset signal; any other failure throws the formatted fetch
error; an ok response yields the object URL of the blob. -/
def fetchVideoBlobUrlRun : FetchOutcome → Except String String
  | .ok u => .ok u
  | .httpError st body =>
    if containsSub body notFoundMarker || st = 404 then .error resetSignal
    else .error ("Failed to fetch video content: " ++ toString st ++ " " ++ body)

/-! The VideoStudio lifecycle controller, from src/App.tsx lines 58-210.
The cosmetic statusMessage state is presentational and omitted. -/

/-- The error presentation state set by setError. -/
structure ErrorBox where
  message : String
  isQuota : Bool
deriving DecidableEq, Repr

/-- The controller-relevant component state of VideoStudio. -/
structure StudioState where
  prompt : String
  resolution : Resolution
  aspect : Aspect
  isGenerating : Bool
  history : List GeneratedVideo
  error : Option ErrorBox
  selectedImage : Option ImagePayload
deriving DecidableEq, Repr

/-- The environment of one startGeneration run: the remote outcomes the
adapters observe (submit outcome, successive poll outcomes, fetch outcome)
together with the Date.now value used for the id and timestamp of a new
video. -/
structure Env where
  submit : Except AdapterErr Operation
  polls : List (Except AdapterErr Operation)
  fetch : FetchOutcome
  now : Nat

/-- The observable result of one startGeneration run: the final component
state, the request passed to the remote service when the submit call was
reached, the sleeps performed by the poll loop in milliseconds (one entry
per iteration), the number of artifact fetches, and whether the onKeyReset
notification was invoked. -/
structure RunResult where
  state : StudioState
  request : Option VeoRequest
  sleeps : List Nat
  fetchCalls : Nat
  keyReset : Bool

/-- The poll loop of startGeneration (src/App.tsx lines 128-138): while the
operation is not done, sleep 10000 milliseconds and poll again via the
getOperationStatus adapter.  The supplied list holds the successive remote
poll outcomes; none means the loop consumed them all and is still polling,
i.e. it would poll indefinitely against a sequence that never reports done. -/
def runPolls : Operation → List (Except AdapterErr Operation) →
    Option (Except String Operation × List Nat)
  | op, ps =>
    if op.done then some (.ok op, [])
    else
      match ps with
      | [] => none
      | p :: rest =>
        match adapterWrap p with
        | .error m => some (.error m, [10000])
        | .ok next =>
          (runPolls next rest).map fun r => (r.1, 10000 :: r.2)

/-- The default shown for a job-level error object with a falsy message. -/
def opErrorFallback : String := "The video generation failed on the server."

/-- The message thrown when a done operation carries no video URI. -/
def emptyResultMsg : String :=
  "Generation completed but no video content was returned. This can happen if the content was flagged by safety filters."

/-- The precondition-failure message of the submit guard. -/
def preconditionMsg : String := "Please provide at least a prompt or an image."

/-- The fixed message shown for quota failures. -/
def quotaShownMsg : String :=
  "API Quota Exceeded. Please check your billing project in Google AI Studio or try again in a few minutes."

/-- The fallback shown when the cleaned message is falsy. -/
def genericFallback : String := "An unexpected error occurred during generation."

/-- The catch and finally blocks of startGeneration (src/App.tsx lines
165-201): unwrap the raw message, classify it, and either invoke the
credential reset (clearing the error display), set the fixed quota error,
or set a generic error; the finally block always clears the generating
flag. -/
def finishCatch (s1 : StudioState) (rawMsg : String) (req : Option VeoRequest)
    (sl : List Nat) (fc : Nat) : RunResult :=
  if rawMsg = resetSignal then
    { state := { s1 with error := none, isGenerating := false }
      request := req, sleeps := sl, fetchCalls := fc, keyReset := true }
  else if quotaCheck (unwrapRaw rawMsg) then
    { state := { s1 with
        error := some { message := quotaShownMsg, isQuota := true }
        isGenerating := false }
      request := req, sleeps := sl, fetchCalls := fc, keyReset := false }
  else
    { state := { s1 with
        error := some { message :=
                          if unwrapRaw rawMsg = "" then genericFallback
                          else unwrapRaw rawMsg
                        isQuota := false }
        isGenerating := false }
      request := req, sleeps := sl, fetchCalls := fc, keyReset := false }

/-- startGeneration, from src/App.tsx lines 105-202, as a function of the
component state and the remote outcomes.  none models the run that never
returns because the poll loop never observes a done operation. -/
def runStart (s : StudioState) (env : Env) : Option RunResult :=
  if trimStr s.prompt = "" ∧ s.selectedImage = none then
    some { state := { s with
             error := some { message := preconditionMsg, isQuota := false } }
           request := none, sleeps := [], fetchCalls := 0, keyReset := false }
  else
    let s1 := { s with isGenerating := true, error := none }
    let req := buildVeoRequest s.prompt s.resolution s.aspect s.selectedImage
    match adapterWrap env.submit with
    | .error msg => some (finishCatch s1 msg (some req) [] 0)
    | .ok op0 =>
      match runPolls op0 env.polls with
      | none => none
      | some (.error msg, sl) => some (finishCatch s1 msg (some req) sl 0)
      | some (.ok op, sl) =>
        match op.error with
        | some em =>
          some (finishCatch s1 (if em = "" then opErrorFallback else em) (some req) sl 0)
        | none =>
          match op.videoUri with
          | some _uri =>
            match fetchVideoBlobUrlRun env.fetch with
            | .error msg => some (finishCatch s1 msg (some req) sl 1)
            | .ok blobUrl =>
              let v : GeneratedVideo :=
                { id := toString env.now
                  url := blobUrl
                  prompt := if s.prompt = "" then "Image-to-Video Animation" else s.prompt
                  resolution := s.resolution
                  aspect := s.aspect
                  createdAt := env.now }
              some { state := { s1 with
                       history := v :: s1.history
                       prompt := ""
                       selectedImage := none
                       isGenerating := false }
                     request := some req, sleeps := sl, fetchCalls := 1, keyReset := false }
          | none => some (finishCatch s1 emptyResultMsg (some req) sl 0)

/-- The disabled condition of the submit button (src/App.tsx lines
335-337): disabled while generating or while the trimmed prompt is empty
and no image is selected. -/
def submitDisabled (s : StudioState) : Bool :=
  s.isGenerating || (trimStr s.prompt == "" && s.selectedImage.isNone)

/-- The submit trigger as the user reaches it: a click on a disabled
button is ignored, leaving the state untouched and performing no call;
otherwise startGeneration runs. -/
def triggerGeneration (s : StudioState) (env : Env) : Option RunResult :=
  if submitDisabled s then
    some { state := s, request := none, sleeps := [], fetchCalls := 0, keyReset := false }
  else runStart s env

/-- removeVideo, from src/App.tsx lines 204-210: look up the entry by id,
revoke its object URL when found, and keep every entry whose id differs.
Returns the new history and the list of revoked URLs. -/
def removeVideo (id : String) (h : List GeneratedVideo) :
    List GeneratedVideo × List String :=
  (h.filter fun v => !(v.id == id),
   match h.find? fun v => v.id == id with
   | some v => [v.url]
   | none => [])

/-! Shared helper lemmas. -/

/-- Appending characters on the left preserves substring containment. -/
theorem containsSub_append_left {m needle : String} (s : String)
    (h : containsSub m needle = true) : containsSub (s ++ m) needle = true := by
  unfold containsSub at h ⊢
  rw [decide_eq_true_iff] at h ⊢
  obtain ⟨u, v, huv⟩ := h
  refine ⟨s.data ++ u, v, ?_⟩
  have hd : (s ++ m).data = s.data ++ m.data := rfl
  rw [hd, ← huv]
  simp

/-- An adapter rejection whose message contains the not-found marker is
normalized to the reset signal. -/
theorem adapterWrap_reset (e : AdapterErr)
    (h : containsSub e.message notFoundMarker = true) :
    adapterWrap (.error e) = .error resetSignal := by
  have h2 := containsSub_append_left (m := e.message) e.stringified h
  simp [adapterWrap, h2]

/-- The catch block on the reset signal: no visible error, reset invoked,
generating flag cleared, history untouched. -/
theorem finishCatch_reset (s1 : StudioState) (req : Option VeoRequest)
    (sl : List Nat) (fc : Nat) :
    finishCatch s1 resetSignal req sl fc =
      { state := { s1 with error := none, isGenerating := false }
        request := req, sleeps := sl, fetchCalls := fc, keyReset := true } := by
  simp [finishCatch]

/-- finishCatch never touches the history list. -/
theorem finishCatch_history (s1 : StudioState) (raw : String)
    (req : Option VeoRequest) (sl : List Nat) (fc : Nat) :
    (finishCatch s1 raw req sl fc).state.history = s1.history := by
  unfold finishCatch
  split
  · rfl
  · split <;> rfl

/-- finishCatch always clears the generating flag. -/
theorem finishCatch_notGenerating (s1 : StudioState) (raw : String)
    (req : Option VeoRequest) (sl : List Nat) (fc : Nat) :
    (finishCatch s1 raw req sl fc).state.isGenerating = false := by
  unfold finishCatch
  split
  · rfl
  · split <;> rfl

/-! Claim theorems. -/

/-- Claim C1: when the trimmed prompt is empty and no reference image is
selected, startGeneration records the precondition-failure error and
returns at once: no request is submitted, no poll sleep and no fetch
happens, the reset notification is not invoked, the generating flag stays
false, and the history is unchanged. -/
theorem claim_C1 (s : StudioState) (env : Env)
    (hp : trimStr s.prompt = "") (hi : s.selectedImage = none)
    (hg : s.isGenerating = false) :
    ∃ r, runStart s env = some r ∧
      r.request = none ∧ r.sleeps = [] ∧ r.fetchCalls = 0 ∧
      r.keyReset = false ∧
      r.state.isGenerating = false ∧
      r.state.history = s.history ∧
      r.state.error = some { message := preconditionMsg, isQuota := false } := by
  unfold runStart
  rw [if_pos ⟨hp, hi⟩]
  exact ⟨_, rfl, rfl, rfl, rfl, rfl, hg, rfl, rfl⟩

/-- Witness for claim C1 at a whitespace-only prompt and empty image. -/
theorem claim_C1_witness :
    ∃ r, runStart
        { prompt := "   ", resolution := .r720p, aspect := .a16x9
          isGenerating := false, history := [], error := none, selectedImage := none }
        { submit := .ok { done := true, error := none, videoUri := some "u" }
          polls := [], fetch := .ok "b", now := 3 } = some r ∧
      r.request = none ∧ r.sleeps = [] ∧ r.fetchCalls = 0 ∧
      r.keyReset = false ∧
      r.state.isGenerating = false ∧
      r.state.history = [] ∧
      r.state.error = some { message := preconditionMsg, isQuota := false } :=
  claim_C1 _ _ (by decide) rfl rfl

/-- Claim C2, counterexample: a successful run submitted with an empty
prompt (image-to-video mode) records the placeholder prompt rather than
the empty prompt of the request, so the prompt field of the prepended
CompletedVideo does not always equal the submitted one. -/
theorem claim_C2_counterexample :
    (runStart
        { prompt := "", resolution := .r720p, aspect := .a16x9
          isGenerating := false, history := [], error := none
          selectedImage := some { imageBytes := "QUJD", mimeType := "image/png" } }
        { submit := .ok { done := true, error := none, videoUri := some "https://v" }
          polls := [], fetch := .ok "blob:1", now := 7 }).map
      (fun r => r.state.history.map fun v => v.prompt) =
      some ["Image-to-Video Animation"] ∧
    "Image-to-Video Animation" ≠ "" := by
  constructor
  · rfl
  · decide

/-- Claim C2, amended: for every job run whose poll sequence ends with
done and no job-level error and a present result URI, and whose artifact
fetch succeeds, the controller succeeds and exactly one CompletedVideo is
prepended at the head of history with the resolution and aspect ratio of
the request and, whenever the submitted prompt text is nonempty, that
prompt (an empty prompt is recorded as the placeholder, see the
counterexample); afterwards the prompt and image inputs are cleared. -/
theorem claim_C2 (s : StudioState) (env : Env) (op0 op : Operation)
    (sl : List Nat) (u : String)
    (hguard : ¬(trimStr s.prompt = "" ∧ s.selectedImage = none))
    (hsub : env.submit = .ok op0)
    (hpoll : runPolls op0 env.polls = some (.ok op, sl))
    (herr : op.error = none)
    (huri : ∃ uri, op.videoUri = some uri)
    (hfetch : env.fetch = .ok u)
    (hprompt : s.prompt ≠ "") :
    ∃ r v, runStart s env = some r ∧
      r.state.history = v :: s.history ∧
      v.prompt = s.prompt ∧ v.resolution = s.resolution ∧ v.aspect = s.aspect ∧
      v.url = u ∧
      r.state.prompt = "" ∧ r.state.selectedImage = none ∧
      r.state.isGenerating = false ∧ r.state.error = none ∧
      r.keyReset = false ∧ r.fetchCalls = 1 := by
  obtain ⟨uri, huri⟩ := huri
  unfold runStart
  rw [if_neg hguard, hsub]
  simp only [adapterWrap, hpoll, herr, huri, hfetch, fetchVideoBlobUrlRun]
  refine ⟨_, _, rfl, rfl, ?_, rfl, rfl, rfl, rfl, rfl, rfl, rfl, rfl, rfl⟩
  rw [if_neg hprompt]

/-- Witness for the amended claim C2 on a run that polls twice. -/
theorem claim_C2_witness :
    ∃ r v, runStart
        { prompt := "a cat", resolution := .r1080p, aspect := .a9x16
          isGenerating := false, history := [], error := none, selectedImage := none }
        { submit := .ok { done := false, error := none, videoUri := none }
          polls := [.ok { done := false, error := none, videoUri := none },
                    .ok { done := true, error := none, videoUri := some "u2" }]
          fetch := .ok "blob:2", now := 9 } = some r ∧
      r.state.history = v :: [] ∧
      v.prompt = "a cat" ∧ v.resolution = .r1080p ∧ v.aspect = .a9x16 ∧
      v.url = "blob:2" ∧
      r.state.prompt = "" ∧ r.state.selectedImage = none ∧
      r.state.isGenerating = false ∧ r.state.error = none ∧
      r.keyReset = false ∧ r.fetchCalls = 1 :=
  claim_C2 _ _ _ { done := true, error := none, videoUri := some "u2" }
    [10000, 10000] _ (by decide) rfl rfl rfl ⟨"u2", rfl⟩ rfl (by decide)

/-- The poll loop, after consuming any number of successful not-yet-done
polls, turns a rejection whose message contains the not-found marker into
the reset signal. -/
theorem runPolls_reject (ops : List Operation) :
    ∀ (op0 : Operation) (e : AdapterErr)
      (rest : List (Except AdapterErr Operation)),
      op0.done = false → (∀ o ∈ ops, o.done = false) →
      containsSub e.message notFoundMarker = true →
      runPolls op0 (ops.map Except.ok ++ .error e :: rest) =
        some (.error resetSignal, List.replicate (ops.length + 1) 10000) := by
  induction ops with
  | nil =>
    intro op0 e rest hnd hall hmark
    conv_lhs => rw [runPolls.eq_def]
    simp only [List.map_nil, List.nil_append, hnd, Bool.false_eq_true,
      if_false, adapterWrap_reset e hmark]
    rfl
  | cons o t ih =>
    intro op0 e rest hnd hall hmark
    conv_lhs => rw [runPolls.eq_def]
    simp only [List.map_cons, List.cons_append, hnd, Bool.false_eq_true,
      if_false, adapterWrap]
    rw [ih o e rest (hall o (List.mem_cons_self o t))
      (fun q hq => hall q (List.mem_cons_of_mem o hq)) hmark]
    simp [List.replicate_succ]

/-- Claim C3: an adapter rejection whose message contains the not-found
marker, at the submit stage, at any iteration of the poll stage (after
any number of successful not-yet-done polls), or at the fetch stage,
makes the controller invoke the credential-reset notification with no
user-facing error recorded and the history untouched.  The adapters
rewrite such rejections to the reset signal before any quota
classification can see them, so this holds even when the message also
contains quota markers: credential invalidation has strict priority
(see the witness). -/
theorem claim_C3 (s : StudioState) (env : Env)
    (hguard : ¬(trimStr s.prompt = "" ∧ s.selectedImage = none)) :
    (∀ e, env.submit = .error e →
      containsSub e.message notFoundMarker = true →
      ∃ r, runStart s env = some r ∧ r.keyReset = true ∧
        r.state.error = none ∧ r.state.history = s.history) ∧
    (∀ op0 (ops : List Operation) e rest, env.submit = .ok op0 →
      op0.done = false → (∀ o ∈ ops, o.done = false) →
      env.polls = ops.map Except.ok ++ .error e :: rest →
      containsSub e.message notFoundMarker = true →
      ∃ r, runStart s env = some r ∧ r.keyReset = true ∧
        r.state.error = none ∧ r.state.history = s.history) ∧
    (∀ op0 op sl st body, env.submit = .ok op0 →
      runPolls op0 env.polls = some (.ok op, sl) → op.error = none →
      (∃ uri, op.videoUri = some uri) → env.fetch = .httpError st body →
      containsSub body notFoundMarker = true →
      ∃ r, runStart s env = some r ∧ r.keyReset = true ∧
        r.state.error = none ∧ r.state.history = s.history) := by
  refine ⟨?_, ?_, ?_⟩
  · intro e hsub hmark
    unfold runStart
    rw [if_neg hguard, hsub]
    simp only [adapterWrap_reset e hmark, finishCatch_reset]
    exact ⟨_, rfl, rfl, rfl, rfl⟩
  · intro op0 ops e rest hsub hnd hall hpolls hmark
    have hrp : runPolls op0 env.polls =
        some (.error resetSignal, List.replicate (ops.length + 1) 10000) := by
      rw [hpolls]
      exact runPolls_reject ops op0 e rest hnd hall hmark
    unfold runStart
    rw [if_neg hguard, hsub]
    simp only [adapterWrap, hrp, finishCatch_reset]
    exact ⟨_, rfl, rfl, rfl, rfl⟩
  · intro op0 op sl st body hsub hpoll herr huri hfetch hmark
    obtain ⟨uri, huri⟩ := huri
    have hfr : fetchVideoBlobUrlRun (.httpError st body) = .error resetSignal := by
      simp [fetchVideoBlobUrlRun, hmark]
    unfold runStart
    rw [if_neg hguard, hsub]
    simp only [adapterWrap, hpoll, herr, huri, hfetch, hfr, finishCatch_reset]
    exact ⟨_, rfl, rfl, rfl, rfl⟩

/-- Witness for claim C3: a rejection at the second poll iteration, after
one successful not-yet-done poll, whose message contains the not-found
marker together with both quota markers, still triggers the credential
reset and records no visible error. -/
theorem claim_C3_witness :
    ∃ r, runStart
        { prompt := "a dog", resolution := .r720p, aspect := .a16x9
          isGenerating := false, history := [], error := none, selectedImage := none }
        { submit := .ok { done := false, error := none, videoUri := none }
          polls := [.ok { done := false, error := none, videoUri := none },
                    .error
                      { stringified := ""
                        message := "Requested entity was not found: quota 429 RESOURCE_EXHAUSTED" }]
          fetch := .ok "b", now := 2 } = some r ∧
      r.keyReset = true ∧ r.state.error = none ∧ r.state.history = [] :=
  (claim_C3 _ _ (by decide)).2.1 _
    [{ done := false, error := none, videoUri := none }] _ [] rfl rfl
    (by decide) rfl (by decide)

/-- A needle is an infix of a mapped list exactly when some infix of the
list maps onto it. -/
theorem within_map_iff (f : Char → Char) (l n : List Char) :
    n <:+: l.map f ↔ ∃ w, w <:+: l ∧ w.map f = n := by
  constructor
  · rintro ⟨u, v, huv⟩
    obtain ⟨l1, l2, rfl, hl1, hl2⟩ := List.map_eq_append_iff.mp huv.symm
    obtain ⟨l3, l4, rfl, hl3, hl4⟩ := List.map_eq_append_iff.mp hl1
    exact ⟨l4, ⟨l3, l2, by simp⟩, hl4⟩
  · rintro ⟨w, ⟨u, v, huv⟩, hw⟩
    exact ⟨u.map f, v.map f, by rw [← huv]; simp [hw]⟩

/-- The quota classifier holds exactly when the message contains quota
case-insensitively, or one of the two exact markers. -/
theorem quotaCheck_iff (m : String) :
    quotaCheck m = true ↔
      (∃ w, w <:+: m.data ∧ w.map Char.toLower = "quota".data) ∨
      "RESOURCE_EXHAUSTED".data <:+: m.data ∨
      "429".data <:+: m.data := by
  unfold quotaCheck containsSub lowerStr
  simp only [Bool.or_eq_true, decide_eq_true_eq]
  constructor
  · rintro ((h | h) | h)
    · exact Or.inr (Or.inl h)
    · exact Or.inr (Or.inr h)
    · exact Or.inl ((within_map_iff Char.toLower m.data _).mp h)
  · rintro (h | h | h)
    · exact Or.inr ((within_map_iff Char.toLower m.data _).mpr h)
    · exact Or.inl (Or.inl h)
    · exact Or.inl (Or.inr h)

/-- The catch block on a non-reset message classified as quota: the fixed
quota error is shown. -/
theorem finishCatch_quota (s1 : StudioState) (raw : String)
    (req : Option VeoRequest) (sl : List Nat) (fc : Nat)
    (h1 : raw ≠ resetSignal) (h2 : quotaCheck (unwrapRaw raw) = true) :
    (finishCatch s1 raw req sl fc).state.error =
      some { message := quotaShownMsg, isQuota := true } := by
  unfold finishCatch
  rw [if_neg h1, if_pos h2]

/-- The catch block on a non-reset, non-quota message with a truthy
unwrapped text: a generic error with that text is shown. -/
theorem finishCatch_generic (s1 : StudioState) (raw : String)
    (req : Option VeoRequest) (sl : List Nat) (fc : Nat)
    (h1 : raw ≠ resetSignal) (h2 : quotaCheck (unwrapRaw raw) = false)
    (h3 : unwrapRaw raw ≠ "") :
    (finishCatch s1 raw req sl fc).state.error =
      some { message := unwrapRaw raw, isQuota := false } := by
  unfold finishCatch
  rw [if_neg h1, if_neg (by simp [h2]), if_neg h3]

/-- Claim C4: for a failure message that is not the credential-reset
signal, the catch block records a visible error that is classified as a
quota failure exactly when the unwrapped message contains quota
case-insensitively, or the exact marker RESOURCE_EXHAUSTED, or the exact
marker 429, and as a generic failure otherwise; in particular the quota
example message is classified as quota and the internal-server-error
example as generic (shown with its own text). -/
theorem claim_C4 (s1 : StudioState) (raw : String) (req : Option VeoRequest)
    (sl : List Nat) (fc : Nat) (hraw : raw ≠ resetSignal) :
    (∃ b, (finishCatch s1 raw req sl fc).state.error = some b ∧
      (b.isQuota = true ↔
        (∃ w, w <:+: (unwrapRaw raw).data ∧ w.map Char.toLower = "quota".data) ∨
        "RESOURCE_EXHAUSTED".data <:+: (unwrapRaw raw).data ∨
        "429".data <:+: (unwrapRaw raw).data)) ∧
    (finishCatch s1 "quota exceeded RESOURCE_EXHAUSTED" req sl fc).state.error =
      some { message := quotaShownMsg, isQuota := true } ∧
    (finishCatch s1 "internal server error" req sl fc).state.error =
      some { message := "internal server error", isQuota := false } := by
  refine ⟨?_, ?_, ?_⟩
  · by_cases hq : quotaCheck (unwrapRaw raw) = true
    · refine ⟨_, finishCatch_quota s1 raw req sl fc hraw hq, ?_⟩
      rw [← quotaCheck_iff, hq]
    · have hqf : quotaCheck (unwrapRaw raw) = false := by
        cases h : quotaCheck (unwrapRaw raw)
        · rfl
        · exact absurd h hq
      refine ⟨{ message := if unwrapRaw raw = "" then genericFallback
                           else unwrapRaw raw
                isQuota := false }, ?_, ?_⟩
      · unfold finishCatch
        rw [if_neg hraw, if_neg (by simp [hqf])]
      · rw [← quotaCheck_iff, hqf]
  · exact finishCatch_quota s1 _ req sl fc (by decide) (by decide)
  · have h := finishCatch_generic s1 "internal server error" req sl fc
      (by decide) (by decide) (by decide)
    rw [h]
    rw [show unwrapRaw "internal server error" = "internal server error" from by decide]

/-- Witness for claim C4 on a message carrying only the 429 marker. -/
theorem claim_C4_witness :
    ∃ b, (finishCatch
        { prompt := "p", resolution := .r720p, aspect := .a16x9
          isGenerating := true, history := [], error := none, selectedImage := none }
        "got http 429" none [] 0).state.error = some b ∧
      (b.isQuota = true ↔
        (∃ w, w <:+: (unwrapRaw "got http 429").data ∧
          w.map Char.toLower = "quota".data) ∨
        "RESOURCE_EXHAUSTED".data <:+: (unwrapRaw "got http 429").data ∨
        "429".data <:+: (unwrapRaw "got http 429").data) :=
  (claim_C4 _ "got http 429" none [] 0 (by decide)).1

/-- The catch block never invokes the reset notification for a non-reset
message. -/
theorem finishCatch_keyReset_false (s1 : StudioState) (raw : String)
    (req : Option VeoRequest) (sl : List Nat) (fc : Nat)
    (h1 : raw ≠ resetSignal) :
    (finishCatch s1 raw req sl fc).keyReset = false := by
  unfold finishCatch
  rw [if_neg h1]
  split <;> rfl

/-- The catch block passes the fetch count through. -/
theorem finishCatch_fetchCalls (s1 : StudioState) (raw : String)
    (req : Option VeoRequest) (sl : List Nat) (fc : Nat) :
    (finishCatch s1 raw req sl fc).fetchCalls = fc := by
  unfold finishCatch
  split
  · rfl
  · split <;> rfl

/-- The catch block passes the request through. -/
theorem finishCatch_request (s1 : StudioState) (raw : String)
    (req : Option VeoRequest) (sl : List Nat) (fc : Nat) :
    (finishCatch s1 raw req sl fc).request = req := by
  unfold finishCatch
  split
  · rfl
  · split <;> rfl

/-- Claim C6: a run whose poll sequence ends done with no job-level error
but without a result URI fails with the no-video-content message (which
carries the safety-filter hint), performs no fetch, leaves the history
unchanged, and ends with the generating flag cleared.  A job-level error
in the done operation is a different transition (the error is surfaced
instead), so the scenario here is the error-free one. -/
theorem claim_C6 (s : StudioState) (env : Env) (op0 op : Operation)
    (sl : List Nat)
    (hguard : ¬(trimStr s.prompt = "" ∧ s.selectedImage = none))
    (hsub : env.submit = .ok op0)
    (hpoll : runPolls op0 env.polls = some (.ok op, sl))
    (herr : op.error = none)
    (huri : op.videoUri = none) :
    ∃ r, runStart s env = some r ∧
      r.state.error = some { message := emptyResultMsg, isQuota := false } ∧
      r.state.history = s.history ∧
      r.state.isGenerating = false ∧
      r.keyReset = false ∧ r.fetchCalls = 0 := by
  have h1 : emptyResultMsg ≠ resetSignal := by decide
  have h3 : unwrapRaw emptyResultMsg = emptyResultMsg := by decide
  have herrbox := finishCatch_generic
    { s with isGenerating := true, error := none } emptyResultMsg
    (some (buildVeoRequest s.prompt s.resolution s.aspect s.selectedImage)) sl 0
    h1 (by decide) (by decide)
  rw [h3] at herrbox
  unfold runStart
  rw [if_neg hguard, hsub]
  simp only [adapterWrap, hpoll, herr, huri]
  exact ⟨_, rfl, herrbox,
    finishCatch_history _ _ _ _ _,
    finishCatch_notGenerating _ _ _ _ _,
    finishCatch_keyReset_false _ _ _ _ _ h1,
    finishCatch_fetchCalls _ _ _ _ _⟩

/-- Witness for claim C6: a run that polls once and completes without a
result URI. -/
theorem claim_C6_witness :
    ∃ r, runStart
        { prompt := "a fox", resolution := .r720p, aspect := .a16x9
          isGenerating := false, history := [], error := none, selectedImage := none }
        { submit := .ok { done := false, error := none, videoUri := none }
          polls := [.ok { done := true, error := none, videoUri := none }]
          fetch := .ok "unused", now := 4 } = some r ∧
      r.state.error = some { message := emptyResultMsg, isQuota := false } ∧
      r.state.history = [] ∧
      r.state.isGenerating = false ∧
      r.keyReset = false ∧ r.fetchCalls = 0 :=
  claim_C6 _ _ _ { done := true, error := none, videoUri := none } [10000]
    (by decide) rfl rfl rfl rfl

/-- Claim C7: on a history whose ids are distinct (the data model makes
the id a unique token), removing an existing id revokes exactly that
entry's URL once and yields the history with exactly that entry removed,
the others unchanged and in order; removing an id that is not present
revokes nothing and leaves the history unchanged. -/
theorem claim_C7 (h : List GeneratedVideo) (id : String)
    (hnd : (h.map fun v => v.id).Nodup) :
    (∀ v, v ∈ h → v.id = id →
      ∃ l rest, h = l ++ v :: rest ∧
        removeVideo id h = (l ++ rest, [v.url])) ∧
    ((∀ v, v ∈ h → v.id ≠ id) → removeVideo id h = (h, [])) := by
  induction h with
  | nil =>
    exact ⟨fun v hv => absurd hv (List.not_mem_nil v), fun _ => rfl⟩
  | cons x t ih =>
    rw [List.map_cons, List.nodup_cons] at hnd
    obtain ⟨hx, hndt⟩ := hnd
    obtain ⟨ih1, ih2⟩ := ih hndt
    constructor
    · intro v hv hvid
      rcases List.mem_cons.mp hv with rfl | hvt
      · refine ⟨[], t, rfl, ?_⟩
        have hxid : (v.id == id) = true := beq_iff_eq.mpr hvid
        have htfil : t.filter (fun w => !(w.id == id)) = t := by
          apply List.filter_eq_self.mpr
          intro w hw
          have : w.id ≠ id := by
            intro hcon
            exact hx (by rw [← hvid] at hcon; exact hcon ▸ List.mem_map_of_mem _ hw)
          simp [this]
        simp [removeVideo, List.filter_cons, List.find?_cons, hxid, htfil]
      · have hxne : x.id ≠ id := by
          intro hcon
          refine hx ?_
          rw [hcon, ← hvid]
          exact List.mem_map_of_mem _ hvt
        have hxb : (x.id == id) = false := by
          simp [hxne]
        obtain ⟨l, rest, ht, hrm⟩ := ih1 v hvt hvid
        refine ⟨x :: l, rest, by rw [ht]; rfl, ?_⟩
        have hfil : t.filter (fun w => !(w.id == id)) = l ++ rest := by
          have := congrArg Prod.fst hrm
          simpa [removeVideo] using this
        have hfind : (match t.find? fun w => w.id == id with
            | some w => [w.url]
            | none => []) = [v.url] := by
          have := congrArg Prod.snd hrm
          simpa [removeVideo] using this
        simp only [removeVideo, List.filter_cons, List.find?_cons, hxb]
        simp only [Bool.not_false, if_true]
        rw [hfil, hfind]
        rfl
    · intro hall
      have hxb : (x.id == id) = false := by
        simp [hall x (List.mem_cons_self x t)]
      have hrm := ih2 fun v hv => hall v (List.mem_cons_of_mem x hv)
      have hfil : t.filter (fun w => !(w.id == id)) = t := by
        have := congrArg Prod.fst hrm
        simpa [removeVideo] using this
      have hfind : (match t.find? fun w => w.id == id with
          | some w => [w.url]
          | none => []) = [] := by
        have := congrArg Prod.snd hrm
        simpa [removeVideo] using this
      simp only [removeVideo, List.filter_cons, List.find?_cons, hxb]
      simp only [Bool.not_false, if_true]
      rw [hfil, hfind]

/-- Witness for claim C7: removing the middle entry of a three-entry
history revokes its URL once and keeps the other two in order. -/
theorem claim_C7_witness :
    ∃ l rest,
      [{ id := "1", url := "u1", prompt := "p1", resolution := .r720p
         aspect := .a16x9, createdAt := 1 },
       { id := "2", url := "u2", prompt := "p2", resolution := .r1080p
         aspect := .a9x16, createdAt := 2 },
       { id := "3", url := "u3", prompt := "p3", resolution := .r720p
         aspect := .a16x9, createdAt := 3 }] =
        l ++ { id := "2", url := "u2", prompt := "p2", resolution := .r1080p
               aspect := .a9x16, createdAt := 2 } :: rest ∧
      removeVideo "2"
        [{ id := "1", url := "u1", prompt := "p1", resolution := .r720p
           aspect := .a16x9, createdAt := 1 },
         { id := "2", url := "u2", prompt := "p2", resolution := .r1080p
           aspect := .a9x16, createdAt := 2 },
         { id := "3", url := "u3", prompt := "p3", resolution := .r720p
           aspect := .a16x9, createdAt := 3 }] = (l ++ rest, ["u2"]) :=
  (claim_C7 _ "2" (by decide)).1 _ (by decide) rfl

/-- Every completed startGeneration run leaves the history unchanged or
prepends exactly one new entry at its head. -/
theorem runStart_history (s : StudioState) (env : Env) (r : RunResult)
    (h : runStart s env = some r) :
    r.state.history = s.history ∨ ∃ v, r.state.history = v :: s.history := by
  unfold runStart at h
  split at h
  · cases h
    exact Or.inl rfl
  · split at h
    · cases h
      exact Or.inl (finishCatch_history _ _ _ _ _)
    · split at h
      · exact absurd h (by simp)
      · cases h
        exact Or.inl (finishCatch_history _ _ _ _ _)
      · split at h
        · cases h
          exact Or.inl (finishCatch_history _ _ _ _ _)
        · split at h
          · split at h
            · cases h
              exact Or.inl (finishCatch_history _ _ _ _ _)
            · cases h
              exact Or.inr ⟨_, rfl⟩
          · cases h
            exact Or.inl (finishCatch_history _ _ _ _ _)

/-- Claim C8: while the generating flag is set the submit trigger is
disabled, so a second submission attempt changes nothing and performs no
submit, poll, or fetch call and no reset; moreover a completed run only
ever leaves the history unchanged or prepends one entry at the head, and
removeVideo only removes entries, keeping the rest in their relative
order, so the history is never reordered. -/
theorem claim_C8 :
    (∀ s env, s.isGenerating = true →
      triggerGeneration s env =
        some { state := s, request := none, sleeps := []
               fetchCalls := 0, keyReset := false }) ∧
    (∀ s env r, runStart s env = some r →
      r.state.history = s.history ∨ ∃ v, r.state.history = v :: s.history) ∧
    (∀ id h, List.Sublist (removeVideo id h).1 h) := by
  refine ⟨?_, runStart_history, ?_⟩
  · intro s env hg
    simp [triggerGeneration, submitDisabled, hg]
  · intro id h
    exact List.filter_sublist h

/-- Witness for claim C8: a click during an active generation leaves the
state untouched and performs nothing. -/
theorem claim_C8_witness :
    triggerGeneration
      { prompt := "busy", resolution := .r720p, aspect := .a16x9
        isGenerating := true
        history := [{ id := "1", url := "u1", prompt := "p1"
                      resolution := .r720p, aspect := .a16x9, createdAt := 1 }]
        error := none, selectedImage := none }
      { submit := .ok { done := true, error := none, videoUri := some "u" }
        polls := [], fetch := .ok "b", now := 6 } =
      some { state :=
               { prompt := "busy", resolution := .r720p, aspect := .a16x9
                 isGenerating := true
                 history := [{ id := "1", url := "u1", prompt := "p1"
                               resolution := .r720p, aspect := .a16x9, createdAt := 1 }]
                 error := none, selectedImage := none }
             request := none, sleeps := [], fetchCalls := 0, keyReset := false } :=
  claim_C8.1 _ _ rfl

/-- Claim C9: every iteration of the poll loop waits exactly 10000
milliseconds before polling (the sleep list of a completed loop is
uniformly 10000); the loop exits immediately once an operation reports
done, performing no further sleep or poll; and against a rejection-free
poll stream the loop completes exactly when some polled operation
eventually reports done, so it polls indefinitely otherwise. -/
theorem claim_C9 :
    (∀ op ps res sl, runPolls op ps = some (res, sl) →
      sl = List.replicate sl.length 10000) ∧
    (∀ op ps, op.done = true → runPolls op ps = some (.ok op, [])) ∧
    (∀ op (ops : List Operation),
      (runPolls op (ops.map Except.ok)).isSome = true ↔
        (op.done = true ∨ ∃ o ∈ ops, o.done = true)) := by
  refine ⟨?_, ?_, ?_⟩
  · intro op ps
    induction ps generalizing op with
    | nil =>
      intro res sl h
      unfold runPolls at h
      split at h
      · cases h
        rfl
      · exact absurd h (by simp)
    | cons p rest ih =>
      intro res sl h
      unfold runPolls at h
      split at h
      · cases h
        rfl
      · simp only [] at h
        rcases hw : adapterWrap p with m | next <;> rw [hw] at h
        · cases h
          rfl
        · rw [Option.map_eq_some'] at h
          obtain ⟨pair, hpair, heq⟩ := h
          cases heq
          have := ih next pair.1 pair.2 hpair
          simp only [List.length_cons, List.replicate_succ]
          rw [← this]
  · intro op ps hd
    unfold runPolls
    rw [if_pos hd]
  · intro op ops
    induction ops generalizing op with
    | nil =>
      cases hd : op.done with
      | false => simp [runPolls, hd]
      | true => simp [runPolls, hd]
    | cons o t ih =>
      cases hd : op.done with
      | true => simp [runPolls, hd]
      | false =>
        have hstep : runPolls op ((o :: t).map Except.ok) =
            (runPolls o (t.map Except.ok)).map fun r => (r.1, 10000 :: r.2) := by
          conv_lhs => rw [runPolls.eq_def]
          simp only [List.map_cons, adapterWrap, hd, Bool.false_eq_true,
            if_false]
        rw [hstep]
        have h2 := ih o
        cases hro : runPolls o (t.map Except.ok) with
        | none =>
          rw [hro] at h2
          simp only [hro, Option.map_none']
          simp only [Option.isSome_none] at h2 ⊢
          simp [hd, ← h2]
        | some pair =>
          rw [hro] at h2
          simp only [hro, Option.map_some']
          simp only [Option.isSome_some] at h2 ⊢
          simp [hd, ← h2]

/-- Witness for claim C9: a loop started on an already-done operation
exits at once with no sleep. -/
theorem claim_C9_witness :
    runPolls { done := true, error := none, videoUri := some "u" }
        [.ok { done := false, error := none, videoUri := none }] =
      some (.ok { done := true, error := none, videoUri := some "u" }, []) :=
  claim_C9.2.1 _ _ rfl

/-- Every completed run past the precondition guard carries the request
that generateVeoVideo built from the submitted inputs. -/
theorem runStart_request (s : StudioState) (env : Env) (r : RunResult)
    (hguard : ¬(trimStr s.prompt = "" ∧ s.selectedImage = none))
    (h : runStart s env = some r) :
    r.request =
      some (buildVeoRequest s.prompt s.resolution s.aspect s.selectedImage) := by
  unfold runStart at h
  rw [if_neg hguard] at h
  split at h
  · cases h
    exact finishCatch_request _ _ _ _ _
  · split at h
    · exact absurd h (by simp)
    · cases h
      exact finishCatch_request _ _ _ _ _
    · split at h
      · cases h
        exact finishCatch_request _ _ _ _ _
      · split at h
        · split at h
          · cases h
            exact finishCatch_request _ _ _ _ _
          · cases h
            rfl
        · cases h
          exact finishCatch_request _ _ _ _ _

/-- Claim C10: when the prompt is empty and a reference image is present,
the prompt actually sent to the remote service is the fixed fallback
animate-this-image text, and on a successful run the CompletedVideo
recorded in history carries the image-to-video placeholder prompt rather
than the empty submitted prompt. -/
theorem claim_C10 (s : StudioState) (env : Env) (img : ImagePayload)
    (hp : s.prompt = "") (hi : s.selectedImage = some img) :
    (∀ r, runStart s env = some r →
      ∃ req, r.request = some req ∧
        req.prompt = "Animate this image with natural motion") ∧
    (∀ op0 op sl u, env.submit = .ok op0 →
      runPolls op0 env.polls = some (.ok op, sl) → op.error = none →
      (∃ uri, op.videoUri = some uri) → env.fetch = .ok u →
      ∃ r v, runStart s env = some r ∧
        r.state.history = v :: s.history ∧
        v.prompt = "Image-to-Video Animation") := by
  have hguard : ¬(trimStr s.prompt = "" ∧ s.selectedImage = none) := by
    rw [hi]
    rintro ⟨_, hcon⟩
    exact Option.noConfusion hcon
  constructor
  · intro r hr
    refine ⟨_, runStart_request s env r hguard hr, ?_⟩
    simp [buildVeoRequest, hp]
  · intro op0 op sl u hsub hpoll herr huri hfetch
    obtain ⟨uri, huri⟩ := huri
    unfold runStart
    rw [if_neg hguard, hsub]
    simp only [adapterWrap, hpoll, herr, huri, hfetch, fetchVideoBlobUrlRun]
    refine ⟨_, _, rfl, rfl, ?_⟩
    rw [if_pos hp]

/-- Witness for claim C10: an empty-prompt, image-present run that
completes successfully records the placeholder prompt. -/
theorem claim_C10_witness :
    ∃ r v, runStart
        { prompt := "", resolution := .r720p, aspect := .a16x9
          isGenerating := false, history := [], error := none
          selectedImage := some { imageBytes := "Zm9v", mimeType := "image/jpeg" } }
        { submit := .ok { done := false, error := none, videoUri := none }
          polls := [.ok { done := true, error := none, videoUri := some "ru" }]
          fetch := .ok "blob:9", now := 11 } = some r ∧
      r.state.history = v :: [] ∧
      v.prompt = "Image-to-Video Animation" :=
  (claim_C10 _ _ { imageBytes := "Zm9v", mimeType := "image/jpeg" } rfl rfl).2
    _ { done := true, error := none, videoUri := some "ru" } [10000] _
    rfl rfl rfl ⟨"ru", rfl⟩ rfl

/-! Lemmas characterizing the brace-extraction model for claim C5. -/

/-- A character list without newlines is a single line. -/
theorem splitNl_no_newline (cs : List Char) (h : '\n' ∉ cs) :
    splitNl cs = [cs] := by
  induction cs with
  | nil => rfl
  | cons c cs ih =>
    have hc : ¬(c = '\n') := fun hcon => h (hcon ▸ List.mem_cons_self c cs)
    have ih2 := ih fun hcon => h (List.mem_cons_of_mem c hcon)
    unfold splitNl
    rw [if_neg hc, ih2]

/-- Characters of a line come from the split list. -/
theorem mem_of_mem_splitNl (cs : List Char) (l : List Char)
    (hl : l ∈ splitNl cs) (c : Char) (hc : c ∈ l) : c ∈ cs := by
  induction cs generalizing l with
  | nil =>
    unfold splitNl at hl
    rw [List.mem_singleton] at hl
    subst hl
    exact absurd hc (List.not_mem_nil c)
  | cons x cs ih =>
    unfold splitNl at hl
    by_cases hx : x = '\n'
    · rw [if_pos hx] at hl
      rcases List.mem_cons.mp hl with rfl | hls
      · exact absurd hc (List.not_mem_nil c)
      · exact List.mem_cons_of_mem x (ih l hls hc)
    · rw [if_neg hx] at hl
      cases hsp : splitNl cs with
      | nil =>
        rw [hsp] at hl
        rw [List.mem_singleton] at hl
        subst hl
        rw [List.mem_singleton] at hc
        exact hc ▸ List.mem_cons_self x cs
      | cons l0 ls =>
        rw [hsp] at hl
        rcases List.mem_cons.mp hl with rfl | hls
        · rcases List.mem_cons.mp hc with rfl | hl0
          · exact List.mem_cons_self c cs
          · exact List.mem_cons_of_mem x
              (ih l0 (hsp ▸ List.mem_cons_self l0 ls) hl0)
        · exact List.mem_cons_of_mem x
            (ih l (hsp ▸ List.mem_cons_of_mem l0 hls) hc)

/-- A line without a left brace yields no match. -/
theorem lineFirstMatch_none (l : List Char) (h : lbrace ∉ l) :
    lineFirstMatch l = none := by
  induction l with
  | nil => rfl
  | cons c cs ih =>
    have hc : ¬(c = lbrace) := fun hcon => h (hcon ▸ List.mem_cons_self c cs)
    unfold lineFirstMatch
    rw [if_neg hc]
    exact ih fun hcon => h (List.mem_cons_of_mem c hcon)

/-- A list with no last right brace holds no right brace at all. -/
theorem lastBraceIdx_none (cs : List Char) (h : lastBraceIdx cs = none) :
    rbrace ∉ cs := by
  induction cs with
  | nil => exact List.not_mem_nil rbrace
  | cons c cs ih =>
    unfold lastBraceIdx at h
    intro hmem
    rcases hli : lastBraceIdx cs with _ | i
    · rw [hli] at h
      rcases List.mem_cons.mp hmem with rfl | hcs
      · rw [if_pos rfl] at h
        exact Option.noConfusion h
      · exact ih hli hcs
    · rw [hli] at h
      exact Option.noConfusion h

/-- Decomposition at the last right brace. -/
theorem lastBraceIdx_some (cs : List Char) (r : Nat)
    (h : lastBraceIdx cs = some r) :
    ∃ b c2, cs = b ++ rbrace :: c2 ∧ rbrace ∉ c2 ∧ b.length = r := by
  induction cs generalizing r with
  | nil => exact Option.noConfusion h
  | cons c cs ih =>
    unfold lastBraceIdx at h
    rcases hli : lastBraceIdx cs with _ | i
    · rw [hli] at h
      by_cases hc : c = rbrace
      · rw [if_pos hc] at h
        cases h
        exact ⟨[], cs, by rw [hc]; rfl, lastBraceIdx_none cs hli, rfl⟩
      · rw [if_neg hc] at h
        exact Option.noConfusion h
    · rw [hli] at h
      cases h
      obtain ⟨b, c2, rfl, hnotin, hlen⟩ := ih i hli
      exact ⟨c :: b, c2, rfl, hnotin, by simp [hlen]⟩

/-- Taking one past a prefix keeps the prefix and the next element. -/
theorem take_len_succ (b : List Char) (x : Char) (c : List Char) :
    (b ++ x :: c).take (b.length + 1) = b ++ [x] := by
  induction b with
  | nil => rfl
  | cons y ys ih =>
    simp only [List.cons_append, List.length_cons, List.take_succ_cons, ih]

/-- Decomposition of a successful line match: the match spans from the
first left brace of the line to its last right brace. -/
theorem lineFirstMatch_some (l sub : List Char)
    (h : lineFirstMatch l = some sub) :
    ∃ a mid c, l = a ++ sub ++ c ∧ lbrace ∉ a ∧ rbrace ∉ c ∧
      sub = lbrace :: mid ++ [rbrace] := by
  induction l generalizing sub with
  | nil => exact Option.noConfusion h
  | cons x xs ih =>
    unfold lineFirstMatch at h
    by_cases hx : x = lbrace
    · rw [if_pos hx] at h
      rcases hli : lastBraceIdx xs with _ | r
      · rw [hli] at h
        exact Option.noConfusion h
      · rw [hli] at h
        cases h
        obtain ⟨b, c2, rfl, hnotin, hlen⟩ := lastBraceIdx_some xs r hli
        refine ⟨[], b, c2, ?_, List.not_mem_nil lbrace, hnotin, ?_⟩
        · rw [hx]
          rw [← hlen, take_len_succ]
          simp
        · rw [hx, ← hlen, take_len_succ]
          rfl
    · rw [if_neg hx] at h
      obtain ⟨a, mid, c, rfl, ha, hc, hsub⟩ := ih sub h
      exact ⟨x :: a, mid, c, rfl,
        fun hmem => by
          rcases List.mem_cons.mp hmem with heq | hmem2
          · exact hx heq.symm
          · exact ha hmem2,
        hc, hsub⟩

/-- Claim C5: the message-unwrapping step locates the brace-delimited
substring of an error message, parses it as JSON, and uses its
error.message field (or its message field) as the display text, falling
back to the raw message when there is no brace-delimited substring, when
it does not parse, or when the fields are absent or empty; in particular
the concrete embedded-JSON message unwraps to the display text X.  The
located substring is characterized, on a single-line message, as spanning
from the first left brace to the last right brace. -/
theorem claim_C5 :
    parseErrorMessage "Error: \x7b\"error\":\x7b\"message\":\"X\"\x7d\x7d" = "X" ∧
    (∀ msg : String, lbrace ∉ msg.data → parseErrorMessage msg = msg) ∧
    (∀ msg sub, extractBraces msg = some sub → parseJsonStr sub = none →
      parseErrorMessage msg = msg) ∧
    (∀ msg sub j m, extractBraces msg = some sub → parseJsonStr sub = some j →
      errMsgField j = some m → m ≠ "" → parseErrorMessage msg = m) ∧
    (∀ msg sub j m, extractBraces msg = some sub → parseJsonStr sub = some j →
      errMsgField j = none → topMsgField j = some m → m ≠ "" →
      parseErrorMessage msg = m) ∧
    (∀ msg sub, '\n' ∉ msg.data → extractBraces msg = some sub →
      ∃ a mid c, msg.data = a ++ sub.data ++ c ∧ lbrace ∉ a ∧ rbrace ∉ c ∧
        sub.data = lbrace :: mid ++ [rbrace]) := by
  refine ⟨by decide, ?_, ?_, ?_, ?_, ?_⟩
  · intro msg h
    have hnone : extractBraces msg = none := by
      unfold extractBraces
      rw [List.findSome?_eq_none_iff.mpr fun l hl =>
        lineFirstMatch_none l fun hmem => h (mem_of_mem_splitNl _ l hl _ hmem)]
      rfl
    unfold parseErrorMessage
    rw [hnone]
  · intro msg sub hext hparse
    unfold parseErrorMessage
    rw [hext]
    simp only [hparse]
  · intro msg sub j m hext hparse herrm hm
    unfold parseErrorMessage
    rw [hext]
    simp only [hparse, herrm]
    rw [if_neg hm]
  · intro msg sub j m hext hparse herrm htop hm
    unfold parseErrorMessage
    rw [hext]
    simp only [hparse, herrm, htop]
    rw [if_neg hm]
  · intro msg sub hnl hext
    unfold extractBraces at hext
    rw [splitNl_no_newline msg.data hnl, List.findSome?_cons] at hext
    rcases hlm : lineFirstMatch msg.data with _ | l
    · rw [hlm] at hext
      exact Option.noConfusion hext
    · rw [hlm] at hext
      cases hext
      exact lineFirstMatch_some msg.data l hlm

/-- Witness for claim C5: a brace-free message falls back to itself. -/
theorem claim_C5_witness :
    parseErrorMessage "plain failure text" = "plain failure text" :=
  claim_C5.2.1 "plain failure text" (by decide)

end Veo
